import Mathlib

/-!
Verification of the Colombian public-holiday calculator and round-date
adjustment engine (`rondas/festivos_colombia.py`).

Shallow embedding conventions:
* A Python `datetime.date` is a `Date` record (year, month, day).  Python
  validates dates at construction; here structural validity is the
  predicate `Valid`, and the fallible constructor used for the
  error-handling claims is `date_ctor`.
* `date.toordinal()` is `ordinal` (days since 0000-12-31 in the proleptic
  Gregorian calendar; `ordinal ⟨1,1,1⟩ = 1`), and `date.weekday()` is
  `weekday` (Monday = 0 … Sunday = 6), exactly as in CPython.
* `fecha + timedelta(days=n)` is `addDays n fecha` (n-fold calendar
  successor `nextDay`), and `fecha - timedelta(days=n)` is `subDays n`.
* Python `//` and `%` on ints are floor division and nonnegative-modulus;
  Lean's `Int` `/` and `%` (ediv/emod) agree with them for the positive
  divisors used by the source.
* The unbounded `while True` scan of `obtener_siguiente_dia_habil` is
  modelled with explicit fuel returning `Option Date`; the theorems show
  the fuel is never exhausted (a business day is always found within 21
  days), so the `Option` never degrades the model.
* Python's `sorted` on dates is `List.insertionSort` by the
  lexicographic year/month/day order `fechaLe`; on the valid dates the
  source produces, this is the same sorted sequence.
-/

set_option maxRecDepth 16000

namespace Rondas

/-- Gregorian leap-year test, as implied by `datetime`'s calendar. -/
def isLeap (y : Int) : Prop :=
  y % 4 = 0 ∧ (y % 100 ≠ 0 ∨ y % 400 = 0)

instance : DecidablePred isLeap := fun y => by
  unfold isLeap; infer_instance

/-- Number of days of month `m` (1–12) of year `y`, as in `datetime`. -/
def daysInMonth (y : Int) (m : Nat) : Nat :=
  match m with
  | 1 => 31 | 2 => if isLeap y then 29 else 28 | 3 => 31 | 4 => 30
  | 5 => 31 | 6 => 30 | 7 => 31 | 8 => 31 | 9 => 30 | 10 => 31
  | 11 => 30 | 12 => 31 | _ => 0

/-- Cumulative days before month `m` in a non-leap year. -/
def daysBeforeMonth (m : Nat) : Nat :=
  match m with
  | 1 => 0 | 2 => 31 | 3 => 59 | 4 => 90 | 5 => 120 | 6 => 151 | 7 => 181
  | 8 => 212 | 9 => 243 | 10 => 273 | 11 => 304 | 12 => 334 | _ => 365

/-- A calendar date value, the embedding of Python's `datetime.date`
(year, month, day).  Structural validity is the separate predicate
`Valid`, mirroring the validation Python performs at construction. -/
structure Date where
  year : Int
  month : Nat
  day : Nat
deriving DecidableEq, Repr

/-- Day-of-year of a date (Jan 1 ↦ 1), with the leap-day correction for
months after February. -/
def doy (d : Date) : Int :=
  (daysBeforeMonth d.month : Int)
    + (if 2 < d.month ∧ isLeap d.year then 1 else 0) + (d.day : Int)

/-- Days in the proleptic Gregorian calendar strictly before January 1 of
year `y`; the year part of CPython's `date.toordinal`. -/
def daysBeforeYear (y : Int) : Int :=
  365 * (y - 1) + (y - 1) / 4 - (y - 1) / 100 + (y - 1) / 400

/-- The embedding of `date.toordinal()`: `ordinal ⟨1,1,1⟩ = 1`. -/
def ordinal (d : Date) : Int :=
  daysBeforeYear d.year + doy d

/-- The embedding of `date.weekday()`: Monday = 0 … Sunday = 6. -/
def weekday (d : Date) : Int :=
  (ordinal d - 1) % 7

/-- Structural validity of a date triple: exactly the condition under
which Python's `date(year, month, day)` constructor accepts the month and
day fields. -/
def Valid (d : Date) : Prop :=
  1 ≤ d.month ∧ d.month ≤ 12 ∧ 1 ≤ d.day ∧ d.day ≤ daysInMonth d.year d.month

instance (d : Date) : Decidable (Valid d) := by
  unfold Valid; infer_instance

/-- Calendar successor: the effect of `fecha + timedelta(days=1)`. -/
def nextDay (d : Date) : Date :=
  if d.day < daysInMonth d.year d.month then ⟨d.year, d.month, d.day + 1⟩
  else if d.month < 12 then ⟨d.year, d.month + 1, 1⟩
  else ⟨d.year + 1, 1, 1⟩

/-- Calendar predecessor: the effect of `fecha - timedelta(days=1)`. -/
def prevDay (d : Date) : Date :=
  if 1 < d.day then ⟨d.year, d.month, d.day - 1⟩
  else if 1 < d.month then ⟨d.year, d.month - 1, daysInMonth d.year (d.month - 1)⟩
  else ⟨d.year - 1, 12, 31⟩

/-- The effect of `fecha + timedelta(days=n)`. -/
def addDays (n : Nat) (d : Date) : Date := nextDay^[n] d

/-- The effect of `fecha - timedelta(days=n)`. -/
def subDays (n : Nat) (d : Date) : Date := prevDay^[n] d

/-- Lexicographic year/month/day comparison: Python's ordering on
`datetime.date`, used by `sorted(festivos)`. -/
def fechaLe (a b : Date) : Prop :=
  a.year < b.year ∨ (a.year = b.year ∧
    (a.month < b.month ∨ (a.month = b.month ∧ a.day ≤ b.day)))

instance : DecidableRel fechaLe := fun a b => by
  unfold fechaLe; infer_instance

/-- Python's `sorted` on a list of dates. -/
def sortFechas (l : List Date) : List Date := List.insertionSort fechaLe l

/-- `FESTIVOS_FIJOS` table of `FestivosColombiaCalculator`: fixed
(month, day) holidays. -/
def FESTIVOS_FIJOS : List (Nat × Nat) :=
  [(1, 1), (5, 1), (7, 20), (8, 7), (12, 8), (12, 25)]

/-- `FESTIVOS_TRASLADABLES` table: holidays moved to the next Monday when
they do not fall on a Monday. -/
def FESTIVOS_TRASLADABLES : List (Nat × Nat) :=
  [(1, 6), (3, 19), (6, 29), (8, 15), (10, 12), (11, 1), (11, 11)]

/-- `calcular_domingo_pascua`: the Gauss Easter computation, line for
line.  All intermediate values are integers with Python's floor `//` and
nonnegative `%`, which coincide with `Int`'s `/` and `%` here. -/
def calcular_domingo_pascua (anio : Int) : Date :=
  let a := anio % 19
  let b := anio / 100
  let c := anio % 100
  let d := b / 4
  let e := b % 4
  let f := (b + 8) / 25
  let g := (b - f + 1) / 3
  let h := (19 * a + b - d - g + 15) % 30
  let i := c / 4
  let k := c % 4
  let l := (32 + 2 * e + 2 * i - h - k) % 7
  let m := (a + 11 * h + 22 * l) / 451
  let n := (h + l - 7 * m + 114) / 31
  let p := (h + l - 7 * m + 114) % 31
  ⟨anio, n.toNat, (p + 1).toNat⟩

/-- The Monday-shift computation that `obtener_festivos_anio` performs
inline at four sites (the trasladable table, Ascensión, Corpus Christi
and Sagrado Corazón), with identical code each time:
if the date is not a Monday, shift by `(7 - weekday) % 7` days, forcing
`7` should that modulus compute to `0`. -/
def trasladoLunes (fecha_original : Date) : Date :=
  if weekday fecha_original ≠ 0 then
    let dias_hasta_lunes := (7 - weekday fecha_original) % 7
    let dias_hasta_lunes := if dias_hasta_lunes = 0 then 7 else dias_hasta_lunes
    addDays dias_hasta_lunes.toNat fecha_original
  else fecha_original

/-- `obtener_festivos_anio`: the full holiday list of a year — fixed
table, Monday-shifted table, and the five Easter-relative dates — in the
source's append order, sorted at the end exactly as `sorted(festivos)`. -/
def obtener_festivos_anio (anio : Int) : List Date :=
  let festivosFijos := FESTIVOS_FIJOS.map (fun md => Date.mk anio md.1 md.2)
  let festivosTrasladables :=
    FESTIVOS_TRASLADABLES.map (fun md => trasladoLunes (Date.mk anio md.1 md.2))
  let domingo_pascua := calcular_domingo_pascua anio
  let jueves_santo := subDays 3 domingo_pascua
  let viernes_santo := subDays 2 domingo_pascua
  let ascension := trasladoLunes (addDays 39 domingo_pascua)
  let corpus_christi := trasladoLunes (addDays 60 domingo_pascua)
  let sagrado_corazon := trasladoLunes (addDays 68 domingo_pascua)
  sortFechas (festivosFijos ++ festivosTrasladables ++
    [jueves_santo, viernes_santo, ascension, corpus_christi, sagrado_corazon])

/-- `es_festivo`: membership of the date in its own year's holiday
list. -/
def es_festivo (fecha : Date) : Bool :=
  decide (fecha ∈ obtener_festivos_anio fecha.year)

/-- Loop condition of `obtener_siguiente_dia_habil`: weekday Monday
through Friday (`weekday < 5`) and not a holiday. -/
def esHabil (d : Date) : Prop :=
  weekday d < 5 ∧ es_festivo d = false

instance (d : Date) : Decidable (esHabil d) := by
  unfold esHabil; infer_instance

/-- The `while True` day-by-day scan of `obtener_siguiente_dia_habil`,
modelled with explicit fuel.  Each step advances one day and stops at the
first business day. -/
def scanHabil : Nat → Date → Option Date
  | 0, _ => none
  | fuel + 1, fecha =>
    let siguiente_dia := nextDay fecha
    if esHabil siguiente_dia then some siguiente_dia
    else scanHabil fuel siguiente_dia

/-- `obtener_siguiente_dia_habil` with a fuel allowance far above the
proven bound of 21 days; the theorems show the scan always succeeds. -/
def obtener_siguiente_dia_habil (fecha : Date) : Option Date :=
  scanHabil 1000 fecha

/-- `ajustar_dia_rondas`: if the date is a holiday or weekend, rounds
move to the next business day (shifted = true); otherwise they stay on
the same date (shifted = false). -/
def ajustar_dia_rondas (fecha : Date) : Option (Date × Bool) :=
  if es_festivo fecha = true ∨ 5 ≤ weekday fecha then
    (obtener_siguiente_dia_habil fecha).map (fun fecha_ajustada => (fecha_ajustada, true))
  else some (fecha, false)

/-- Fallible date construction: the validation Python's
`date(year, month, day)` constructor performs, including the
`MINYEAR = 1 … MAXYEAR = 9999` year range; out-of-range input raises
`ValueError`, modelled as `none`. -/
def date_ctor (year : Int) (month day : Nat) : Option Date :=
  if 1 ≤ year ∧ year ≤ 9999 ∧ 1 ≤ month ∧ month ≤ 12 ∧
      1 ≤ day ∧ day ≤ daysInMonth year month then
    some ⟨year, month, day⟩
  else none

/-- `calcular_domingo_pascua` with the final `date(anio, n, p + 1)`
construction made fallible, so a year Python's `date` rejects surfaces
as `none` instead of a fabricated date. -/
def calcular_domingo_pascua_checked (anio : Int) : Option Date :=
  let a := anio % 19
  let b := anio / 100
  let c := anio % 100
  let d := b / 4
  let e := b % 4
  let f := (b + 8) / 25
  let g := (b - f + 1) / 3
  let h := (19 * a + b - d - g + 15) % 30
  let i := c / 4
  let k := c % 4
  let l := (32 + 2 * e + 2 * i - h - k) % 7
  let m := (a + 11 * h + 22 * l) / 451
  let n := (h + l - 7 * m + 114) / 31
  let p := (h + l - 7 * m + 114) % 31
  date_ctor anio n.toNat (p + 1).toNat

/-- Constructs the dates of a (month, day) table through the fallible
constructor, propagating the first failure — the behaviour of the
`date(anio, mes, dia)` loops in `obtener_festivos_anio` when a date raises. -/
def construirFechas (anio : Int) : List (Nat × Nat) → Option (List Date)
  | [] => some []
  | md :: rest =>
    (date_ctor anio md.1 md.2).bind fun f =>
      (construirFechas anio rest).map (fun l => f :: l)

/-- `obtener_festivos_anio` with every `date(...)` construction fallible:
an out-of-range year fails at the first constructed date (raising
`ValueError` in Python) instead of returning a list. -/
def obtener_festivos_anio_checked (anio : Int) : Option (List Date) :=
  (construirFechas anio FESTIVOS_FIJOS).bind fun festivosFijos =>
    (construirFechas anio FESTIVOS_TRASLADABLES).bind fun bases =>
      (calcular_domingo_pascua_checked anio).map fun domingo_pascua =>
        let festivosTrasladables := bases.map trasladoLunes
        let jueves_santo := subDays 3 domingo_pascua
        let viernes_santo := subDays 2 domingo_pascua
        let ascension := trasladoLunes (addDays 39 domingo_pascua)
        let corpus_christi := trasladoLunes (addDays 60 domingo_pascua)
        let sagrado_corazon := trasladoLunes (addDays 68 domingo_pascua)
        sortFechas (festivosFijos ++ festivosTrasladables ++
          [jueves_santo, viernes_santo, ascension, corpus_christi, sagrado_corazon])

/-! ### Calendar arithmetic lemmas -/

lemma daysBeforeYear_succ (y : Int) :
    daysBeforeYear (y + 1) = daysBeforeYear y + 365 + (if isLeap y then 1 else 0) := by
  simp only [daysBeforeYear]
  split_ifs with h <;> unfold isLeap at h <;> omega

lemma weekday_nonneg (d : Date) : 0 ≤ weekday d := by
  unfold weekday; omega

lemma weekday_lt (d : Date) : weekday d < 7 := by
  unfold weekday; omega

lemma nextDay_spec (d : Date) (hd : Valid d) :
    Valid (nextDay d) ∧ ordinal (nextDay d) = ordinal d + 1 ∧
      ((nextDay d).year = d.year ∨
        (d.month = 12 ∧ d.day = 31 ∧ (nextDay d).year = d.year + 1)) := by
  obtain ⟨y, m, day⟩ := d
  obtain ⟨h1, h2, h3, h4⟩ := hd
  dsimp only at h1 h2 h3 h4
  by_cases hL : isLeap y <;>
  · simp only [nextDay]
    split_ifs with hlt hm
    · refine ⟨⟨h1, h2, by dsimp only; omega, by dsimp only; omega⟩, ?_, Or.inl rfl⟩
      simp only [ordinal, doy]; dsimp only
      push_cast; ring
    · interval_cases m <;>
        simp_all [Valid, ordinal, doy, daysInMonth, daysBeforeMonth] <;>
          push_cast <;> omega
    · have hm12 : m = 12 := by omega
      subst hm12
      have hday : day = 31 := by
        simp [daysInMonth] at h4 hlt; omega
      subst hday
      have hs := daysBeforeYear_succ y
      simp_all [Valid, ordinal, doy, daysInMonth, daysBeforeMonth] <;>
        push_cast <;> omega

lemma prevDay_spec (d : Date) (hd : Valid d) :
    Valid (prevDay d) ∧ ordinal (prevDay d) = ordinal d - 1 ∧
      ((prevDay d).year = d.year ∨
        (d.month = 1 ∧ d.day = 1 ∧ (prevDay d).year = d.year - 1)) := by
  obtain ⟨y, m, day⟩ := d
  obtain ⟨h1, h2, h3, h4⟩ := hd
  dsimp only at h1 h2 h3 h4
  by_cases hL : isLeap y <;>
  · simp only [prevDay]
    split_ifs with hlt hm
    · refine ⟨⟨h1, h2, by dsimp only; omega, by dsimp only; omega⟩, ?_, Or.inl rfl⟩
      simp only [ordinal, doy]; dsimp only
      push_cast; omega
    · interval_cases m <;>
        simp_all [Valid, ordinal, doy, daysInMonth, daysBeforeMonth] <;>
          push_cast <;> omega
    · have hm1 : m = 1 := by omega
      have hday : day = 1 := by omega
      subst hm1; subst hday
      by_cases hL1 : isLeap (y - 1) <;>
      · have hs := daysBeforeYear_succ (y - 1)
        rw [show y - 1 + 1 = y by ring] at hs
        simp_all [Valid, ordinal, doy, daysInMonth, daysBeforeMonth] <;>
          push_cast <;> omega

lemma addDays_spec (n : Nat) : ∀ d : Date, Valid d →
    Valid (addDays n d) ∧ ordinal (addDays n d) = ordinal d + n := by
  induction n with
  | zero => intro d hd; simpa [addDays] using hd
  | succ k ih =>
    intro d hd
    have h1 := nextDay_spec d hd
    have h2 := ih (nextDay d) h1.1
    unfold addDays at h2 ⊢
    rw [Function.iterate_succ_apply]
    refine ⟨h2.1, ?_⟩
    rw [h2.2, h1.2.1]
    push_cast; ring

lemma subDays_spec (n : Nat) : ∀ d : Date, Valid d →
    Valid (subDays n d) ∧ ordinal (subDays n d) = ordinal d - n := by
  induction n with
  | zero => intro d hd; simpa [subDays] using hd
  | succ k ih =>
    intro d hd
    have h1 := prevDay_spec d hd
    have h2 := ih (prevDay d) h1.1
    unfold subDays at h2 ⊢
    rw [Function.iterate_succ_apply]
    refine ⟨h2.1, ?_⟩
    rw [h2.2, h1.2.1]
    push_cast; ring

lemma weekday_addDays (n : Nat) (d : Date) (hd : Valid d) :
    weekday (addDays n d) = (weekday d + n) % 7 := by
  have h := (addDays_spec n d hd).2
  unfold weekday
  rw [h]; omega

lemma doy_bounds (d : Date) (hd : Valid d) :
    1 ≤ doy d ∧ doy d ≤ 365 + (if isLeap d.year then 1 else 0) := by
  obtain ⟨y, m, day⟩ := d
  obtain ⟨h1, h2, h3, h4⟩ := hd
  dsimp only at h1 h2 h3 h4 ⊢
  by_cases hL : isLeap y <;>
    interval_cases m <;>
      simp_all [doy, daysInMonth, daysBeforeMonth] <;> push_cast <;> omega

lemma daysBeforeYear_mono (a b : Int) (h : a ≤ b) :
    daysBeforeYear a ≤ daysBeforeYear b := by
  refine Int.le_induction (P := fun n => daysBeforeYear a ≤ daysBeforeYear n)
    (le_refl _) (fun n hn ih => ?_) b h
  have hs := daysBeforeYear_succ n
  split_ifs at hs <;> omega

/-- Start-of-month offset: `doy d = monthStart d.year d.month + d.day`. -/
def monthStart (y : Int) (m : Nat) : Int :=
  (daysBeforeMonth m : Int) + (if 2 < m ∧ isLeap y then 1 else 0)

lemma doy_eq_monthStart (d : Date) : doy d = monthStart d.year d.month + d.day := by
  unfold doy monthStart; ring

lemma monthStart_step (y : Int) (m : Nat) (h1 : 1 ≤ m) (h2 : m ≤ 11) :
    monthStart y (m + 1) = monthStart y m + daysInMonth y m := by
  by_cases hL : isLeap y <;>
    interval_cases m <;>
      simp_all [monthStart, daysInMonth, daysBeforeMonth]

lemma monthStart_mono (y : Int) (m m' : Nat) (h1 : 1 ≤ m) (h : m ≤ m') (h2 : m' ≤ 12) :
    monthStart y m ≤ monthStart y m' := by
  induction m' with
  | zero => omega
  | succ n ih =>
    rcases Nat.lt_or_ge m (n + 1) with hlt | hge
    · have hn1 : 1 ≤ n := by omega
      have hn11 : n ≤ 11 := by omega
      have hs := monthStart_step y n hn1 hn11
      have hd : 28 ≤ daysInMonth y n := by
        by_cases hL : isLeap y <;>
          interval_cases n <;> simp_all [daysInMonth]
      have hle := ih (by omega) (by omega)
      omega
    · have hm : m = n + 1 := by omega
      subst hm; exact le_refl _

lemma year_eq_of_ordinal_eq (x z : Date) (hx : Valid x) (hz : Valid z)
    (h : ordinal x = ordinal z) : x.year = z.year := by
  have bx := doy_bounds x hx
  have bz := doy_bounds z hz
  by_contra hne
  unfold ordinal at h
  rcases lt_or_gt_of_ne hne with hlt | hlt
  · have h2 := daysBeforeYear_mono (x.year + 1) z.year (by omega)
    have hs := daysBeforeYear_succ x.year
    split_ifs at bx bz hs <;> omega
  · have h2 := daysBeforeYear_mono (z.year + 1) x.year (by omega)
    have hs := daysBeforeYear_succ z.year
    split_ifs at bx bz hs <;> omega

lemma month_day_eq_of_doy_eq (x z : Date) (hx : Valid x) (hz : Valid z)
    (hy : x.year = z.year) (h : doy x = doy z) : x.month = z.month ∧ x.day = z.day := by
  obtain ⟨hx1, hx2, hx3, hx4⟩ := hx
  obtain ⟨hz1, hz2, hz3, hz4⟩ := hz
  have ex := doy_eq_monthStart x
  have ez := doy_eq_monthStart z
  rw [hy] at ex
  have hmm : x.month = z.month := by
    by_contra hne
    rcases Nat.lt_or_ge x.month z.month with hlt | hge
    · have hs := monthStart_step z.year x.month hx1 (by omega)
      have hmono := monthStart_mono z.year (x.month + 1) z.month (by omega) (by omega) hz2
      rw [hy] at hx4
      omega
    · have hlt : z.month < x.month := by omega
      have hs := monthStart_step z.year z.month hz1 (by omega)
      have hmono := monthStart_mono z.year (z.month + 1) x.month (by omega) (by omega) hx2
      omega
  rw [hmm] at ex
  exact ⟨hmm, by omega⟩

lemma ordinal_inj (x z : Date) (hx : Valid x) (hz : Valid z)
    (h : ordinal x = ordinal z) : x = z := by
  have hy := year_eq_of_ordinal_eq x z hx hz h
  have hd : doy x = doy z := by
    unfold ordinal at h; rw [hy] at h; omega
  have hmd := month_day_eq_of_doy_eq x z hx hz hy hd
  obtain ⟨yx, mx, dayx⟩ := x
  obtain ⟨yz, mz, dayz⟩ := z
  simp_all

lemma doy_eq (d : Date) : doy d = ordinal d - daysBeforeYear d.year := by
  unfold ordinal; ring

lemma addDays_in_year (n : Nat) : ∀ d : Date, Valid d → doy d + n ≤ 365 →
    (addDays n d).year = d.year ∧ doy (addDays n d) = doy d + n := by
  induction n with
  | zero => intro d hd h; simp [addDays]
  | succ k ih =>
    intro d hd h
    have hk := ih d hd (by push_cast at h ⊢; omega)
    have hv := (addDays_spec k d hd).1
    have hs := nextDay_spec (addDays k d) hv
    have hstep : addDays (k + 1) d = nextDay (addDays k d) :=
      Function.iterate_succ_apply' nextDay k d
    rcases hs.2.2 with hy | ⟨hm, hdy, _⟩
    · have e1 := hs.2.1
      have e2 := doy_eq (nextDay (addDays k d))
      have e3 := doy_eq (addDays k d)
      rw [hstep, hy, hk.1]
      refine ⟨rfl, ?_⟩
      rw [hy, hk.1] at e2
      rw [hk.1] at e3
      have hk2 := hk.2
      push_cast
      omega
    · exfalso
      have hde : doy (addDays k d) = 365 + (if isLeap (addDays k d).year then 1 else 0) := by
        simp [doy, hm, hdy, daysBeforeMonth]
        split_ifs <;> omega
      have := hk.2
      split_ifs at hde <;> push_cast at h <;> omega

lemma subDays_in_year (n : Nat) : ∀ d : Date, Valid d → (n : Int) < doy d →
    (subDays n d).year = d.year ∧ doy (subDays n d) = doy d - n := by
  induction n with
  | zero => intro d hd h; simp [subDays]
  | succ k ih =>
    intro d hd h
    have hk := ih d hd (by push_cast at h ⊢; omega)
    have hv := (subDays_spec k d hd).1
    have hs := prevDay_spec (subDays k d) hv
    have hstep : subDays (k + 1) d = prevDay (subDays k d) :=
      Function.iterate_succ_apply' prevDay k d
    rcases hs.2.2 with hy | ⟨hm, hdy, _⟩
    · have e2 := doy_eq (prevDay (subDays k d))
      have e3 := doy_eq (subDays k d)
      have e1 := hs.2.1
      rw [hstep, hy, hk.1]
      refine ⟨rfl, ?_⟩
      rw [hy, hk.1] at e2
      rw [hk.1] at e3
      have hk2 := hk.2
      push_cast
      omega
    · exfalso
      have hde : doy (subDays k d) = 1 := by
        simp [doy, hm, hdy, daysBeforeMonth]
      have := hk.2
      push_cast at h
      omega

/-! ### The Easter computation -/

lemma pascua_core (anio a b c d e f g h i k l m n p : Int)
    (ha : a = anio % 19) (hb : b = anio / 100) (hc : c = anio % 100)
    (hdq : d = b / 4) (heq : e = b % 4) (hfq : f = (b + 8) / 25)
    (hgq : g = (b - f + 1) / 3) (hhq : h = (19 * a + b - d - g + 15) % 30)
    (hiq : i = c / 4) (hkq : k = c % 4)
    (hlq : l = (32 + 2 * e + 2 * i - h - k) % 7)
    (hmq : m = (a + 11 * h + 22 * l) / 451)
    (hnq : n = (h + l - 7 * m + 114) / 31)
    (hpq : p = (h + l - 7 * m + 114) % 31) :
    (n = 3 ∨ n = 4) ∧ 0 ≤ p ∧ (n = 3 → p + 1 ≤ 31) ∧ (n = 4 → p + 1 ≤ 26) ∧
      (n = 3 →
        (daysBeforeYear anio + (59 + (if isLeap anio then 1 else 0) + (p + 1))) % 7 = 0) ∧
      (n = 4 →
        (daysBeforeYear anio + (90 + (if isLeap anio then 1 else 0) + (p + 1))) % 7 = 0) := by
  have hab : 0 ≤ a ∧ a ≤ 18 := by omega
  have hhb : 0 ≤ h ∧ h ≤ 29 := by omega
  have hlb : 0 ≤ l ∧ l ≤ 6 := by omega
  have hmb : 0 ≤ m ∧ m ≤ 1 := by omega
  have hnb : n = 3 ∨ n = 4 := by omega
  have hpX : p = h + l - 7 * m + 114 - 31 * n := by omega
  have hlX : l % 7 = l ∧ (32 + 2 * e + 2 * i - h - k) % 7 = l := by
    constructor <;> omega
  clear hfq hgq hhq hmq hlq hnq ha hab
  refine ⟨hnb, by omega, by omega, by omega, ?_, ?_⟩ <;>
    · intro hn3
      subst hn3
      unfold daysBeforeYear
      split_ifs with hL <;> unfold isLeap at hL
      · obtain ⟨h4, hor⟩ := hL
        rcases hor with h100 | h400
        · have k0 : k = 0 := by omega
          have s1 : (anio - 1) / 4 = 25 * b + i - 1 := by omega
          have s2 : (anio - 1) / 100 = b := by omega
          have s3 : (anio - 1) / 400 = d := by omega
          rw [s1, s2, s3]
          omega
        · have c0 : c = 0 ∧ k = 0 ∧ i = 0 ∧ e = 0 := by omega
          obtain ⟨c0, k0, i0, e0⟩ := c0
          have s1 : (anio - 1) / 4 = 25 * b - 1 := by omega
          have s2 : (anio - 1) / 100 = b - 1 := by omega
          have s3 : (anio - 1) / 400 = d - 1 := by omega
          rw [s1, s2, s3]
          omega
      · push_neg at hL
        by_cases h4 : anio % 4 = 0
        · obtain ⟨h100, h400⟩ := hL h4
          have c0 : c = 0 ∧ k = 0 ∧ i = 0 := by omega
          obtain ⟨c0, k0, i0⟩ := c0
          have e0 : e ≠ 0 := by omega
          have s1 : (anio - 1) / 4 = 25 * b - 1 := by omega
          have s2 : (anio - 1) / 100 = b - 1 := by omega
          have s3 : (anio - 1) / 400 = d := by omega
          rw [s1, s2, s3]
          omega
        · have kne : k ≠ 0 := by omega
          have s1 : (anio - 1) / 4 = 25 * b + i := by omega
          have s2 : (anio - 1) / 100 = b := by omega
          have s3 : (anio - 1) / 400 = d := by omega
          rw [s1, s2, s3]
          omega

lemma pascua_spec (anio : Int) :
    (calcular_domingo_pascua anio).year = anio ∧
      ((calcular_domingo_pascua anio).month = 3 ∨ (calcular_domingo_pascua anio).month = 4) ∧
      Valid (calcular_domingo_pascua anio) ∧
      weekday (calcular_domingo_pascua anio) = 6 ∧
      60 ≤ doy (calcular_domingo_pascua anio) ∧ doy (calcular_domingo_pascua anio) ≤ 117 := by
  obtain ⟨n, p, heq, hn34, hp0, hp3, hp4, hmod3, hmod4⟩ :
      ∃ n p : Int, calcular_domingo_pascua anio = ⟨anio, n.toNat, (p + 1).toNat⟩ ∧
        (n = 3 ∨ n = 4) ∧ 0 ≤ p ∧ (n = 3 → p + 1 ≤ 31) ∧ (n = 4 → p + 1 ≤ 26) ∧
        (n = 3 →
          (daysBeforeYear anio + (59 + (if isLeap anio then 1 else 0) + (p + 1))) % 7 = 0) ∧
        (n = 4 →
          (daysBeforeYear anio + (90 + (if isLeap anio then 1 else 0) + (p + 1))) % 7 = 0) := by
    refine ⟨_, _, rfl, ?_⟩
    exact pascua_core anio _ _ _ _ _ _ _ _ _ _ _ _ _ _
      rfl rfl rfl rfl rfl rfl rfl rfl rfl rfl rfl rfl rfl rfl
  rcases hn34 with hn | hn <;>
    subst hn <;>
      simp only [heq, Valid, weekday, ordinal, doy, daysInMonth, daysBeforeMonth,
        Int.toNat_ofNat] <;>
      [have hm := hmod3 rfl; have hm := hmod4 rfl] <;>
      [have hpb := hp3 rfl; have hpb := hp4 rfl] <;>
        split_ifs <;> simp_all <;> push_cast <;> omega

/-! ### The Monday-shift rule -/

lemma trasladoLunes_spec (d : Date) (hd : Valid d) :
    Valid (trasladoLunes d) ∧ weekday (trasladoLunes d) = 0 ∧
      (weekday d = 0 → trasladoLunes d = d) ∧
      ∃ s : Nat, s ≤ 6 ∧ (weekday d ≠ 0 → 1 ≤ s) ∧ trasladoLunes d = addDays s d ∧
        ordinal (trasladoLunes d) = ordinal d + s := by
  have hw0 := weekday_nonneg d
  have hw7 := weekday_lt d
  by_cases hne : weekday d ≠ 0
  · have hmod : (7 - weekday d) % 7 = 7 - weekday d := by omega
    have hnz : ¬((7 - weekday d) % 7 = 0) := by omega
    have hnz2 : ¬(7 - weekday d = 0) := by omega
    have heq : trasladoLunes d = addDays (7 - weekday d).toNat d := by
      simp only [trasladoLunes, if_pos hne, hmod, if_neg hnz, if_neg hnz2]
    have hadd := addDays_spec (7 - weekday d).toNat d hd
    have hwd := weekday_addDays (7 - weekday d).toNat d hd
    have hcast : ((7 - weekday d).toNat : Int) = 7 - weekday d := by omega
    rw [hcast] at hwd hadd
    refine ⟨by rw [heq]; exact hadd.1, by rw [heq, hwd]; omega,
      fun h => absurd h hne, ⟨(7 - weekday d).toNat, by omega, fun _ => by omega,
        heq, by rw [heq]; omega⟩⟩
  · push_neg at hne
    have heq : trasladoLunes d = d := by
      simp only [trasladoLunes, hne]; simp
    exact ⟨by rw [heq]; exact hd, by rw [heq]; omega, fun _ => heq,
      ⟨0, by omega, fun h => absurd hne h, by rw [heq]; rfl, by rw [heq]; simp⟩⟩

/-! ### Membership facts about `es_festivo` -/

lemma es_festivo_true_iff (d : Date) :
    es_festivo d = true ↔ d ∈ obtener_festivos_anio d.year := by
  unfold es_festivo
  exact decide_eq_true_iff

lemma es_festivo_false_iff (d : Date) :
    es_festivo d = false ↔ d ∉ obtener_festivos_anio d.year := by
  rw [← es_festivo_true_iff]
  cases es_festivo d <;> simp

/-! ### Structure of the holiday list -/

lemma trasladoLunes_year (d : Date) (hd : Valid d) (hdoy : doy d ≤ 359) :
    (trasladoLunes d).year = d.year := by
  obtain ⟨hv, hw, hid, s, hs6, hs1, heq, ho⟩ := trasladoLunes_spec d hd
  rw [heq]
  exact (addDays_in_year s d hd (by push_cast; omega)).1

lemma festivos_eq (anio : Int) :
    obtener_festivos_anio anio = sortFechas (
      FESTIVOS_FIJOS.map (fun md => Date.mk anio md.1 md.2) ++
      FESTIVOS_TRASLADABLES.map (fun md => trasladoLunes (Date.mk anio md.1 md.2)) ++
      [subDays 3 (calcular_domingo_pascua anio), subDays 2 (calcular_domingo_pascua anio),
        trasladoLunes (addDays 39 (calcular_domingo_pascua anio)),
        trasladoLunes (addDays 60 (calcular_domingo_pascua anio)),
        trasladoLunes (addDays 68 (calcular_domingo_pascua anio))]) := rfl

lemma festivos_length (anio : Int) : (obtener_festivos_anio anio).length = 18 := by
  rw [festivos_eq]
  unfold sortFechas
  rw [List.length_insertionSort]
  rfl

set_option maxHeartbeats 2000000 in
lemma festivos_elem_spec (anio : Int) (fc : Date) (hf : fc ∈ obtener_festivos_anio anio) :
    Valid fc ∧ fc.year = anio ∧
      (weekday fc = 0 ∨ weekday fc = 3 ∨ weekday fc = 4 ∨
        (fc.month, fc.day) ∈ FESTIVOS_FIJOS) := by
  obtain ⟨hpy, hpm, hpv, hpw, hpd1, hpd2⟩ := pascua_spec anio
  have hpw6 : (ordinal (calcular_domingo_pascua anio) - 1) % 7 = 6 := hpw
  rw [festivos_eq] at hf
  unfold sortFechas at hf
  rw [List.mem_insertionSort] at hf
  simp only [List.mem_append, List.mem_map, List.mem_cons, List.not_mem_nil, or_false,
    FESTIVOS_FIJOS, FESTIVOS_TRASLADABLES] at hf
  have fij : ∀ m d : Nat, (m, d) ∈ FESTIVOS_FIJOS → Valid ⟨anio, m, d⟩ →
      Valid (⟨anio, m, d⟩ : Date) ∧ (⟨anio, m, d⟩ : Date).year = anio ∧
        (weekday ⟨anio, m, d⟩ = 0 ∨ weekday ⟨anio, m, d⟩ = 3 ∨ weekday ⟨anio, m, d⟩ = 4 ∨
          ((⟨anio, m, d⟩ : Date).month, (⟨anio, m, d⟩ : Date).day) ∈ FESTIVOS_FIJOS) :=
    fun m d hmem hv => ⟨hv, rfl, Or.inr (Or.inr (Or.inr hmem))⟩
  have tras : ∀ m d : Nat, Valid ⟨anio, m, d⟩ → doy ⟨anio, m, d⟩ ≤ 359 →
      Valid (trasladoLunes ⟨anio, m, d⟩) ∧ (trasladoLunes ⟨anio, m, d⟩).year = anio ∧
        (weekday (trasladoLunes ⟨anio, m, d⟩) = 0 ∨
          weekday (trasladoLunes ⟨anio, m, d⟩) = 3 ∨
          weekday (trasladoLunes ⟨anio, m, d⟩) = 4 ∨
          ((trasladoLunes ⟨anio, m, d⟩).month, (trasladoLunes ⟨anio, m, d⟩).day) ∈
            FESTIVOS_FIJOS) := by
    intro m d hv hdoy
    obtain ⟨h1, h2, _⟩ := trasladoLunes_spec ⟨anio, m, d⟩ hv
    exact ⟨h1, trasladoLunes_year _ hv hdoy, Or.inl h2⟩
  have pasAdd : ∀ off : Nat, off ≤ 68 →
      Valid (trasladoLunes (addDays off (calcular_domingo_pascua anio))) ∧
        (trasladoLunes (addDays off (calcular_domingo_pascua anio))).year = anio ∧
        weekday (trasladoLunes (addDays off (calcular_domingo_pascua anio))) = 0 := by
    intro off hoff
    have hv := (addDays_spec off _ hpv).1
    have hy := addDays_in_year off _ hpv (by push_cast; omega)
    obtain ⟨h1, h2, _⟩ := trasladoLunes_spec _ hv
    refine ⟨h1, ?_, h2⟩
    rw [trasladoLunes_year _ hv (by omega), hy.1, hpy]
  have pas39 := pasAdd 39 (by omega)
  have pas60 := pasAdd 60 (by omega)
  have pas68 := pasAdd 68 (by omega)
  rcases hf with (⟨aa, ha, hfa⟩ | ⟨aa, ha, hfa⟩) | (hf | hf | hf | hf | hf)
  · subst hfa
    rcases ha with h | h | h | h | h | h <;> subst h
    · exact fij 1 1 (by simp [FESTIVOS_FIJOS]) (by simp [Valid, daysInMonth])
    · exact fij 5 1 (by simp [FESTIVOS_FIJOS]) (by simp [Valid, daysInMonth])
    · exact fij 7 20 (by simp [FESTIVOS_FIJOS]) (by simp [Valid, daysInMonth])
    · exact fij 8 7 (by simp [FESTIVOS_FIJOS]) (by simp [Valid, daysInMonth])
    · exact fij 12 8 (by simp [FESTIVOS_FIJOS]) (by simp [Valid, daysInMonth])
    · exact fij 12 25 (by simp [FESTIVOS_FIJOS]) (by simp [Valid, daysInMonth])
  · subst hfa
    rcases ha with h | h | h | h | h | h | h <;> subst h
    · exact tras 1 6 (by simp [Valid, daysInMonth])
        (by simp [doy, daysBeforeMonth])
    · exact tras 3 19 (by simp [Valid, daysInMonth])
        (by simp [doy, daysBeforeMonth]; split_ifs <;> omega)
    · exact tras 6 29 (by simp [Valid, daysInMonth])
        (by simp [doy, daysBeforeMonth]; split_ifs <;> omega)
    · exact tras 8 15 (by simp [Valid, daysInMonth])
        (by simp [doy, daysBeforeMonth]; split_ifs <;> omega)
    · exact tras 10 12 (by simp [Valid, daysInMonth])
        (by simp [doy, daysBeforeMonth]; split_ifs <;> omega)
    · exact tras 11 1 (by simp [Valid, daysInMonth])
        (by simp [doy, daysBeforeMonth]; split_ifs <;> omega)
    · exact tras 11 11 (by simp [Valid, daysInMonth])
        (by simp [doy, daysBeforeMonth]; split_ifs <;> omega)
  · -- jueves_santo
    subst hf
    have hv := (subDays_spec 3 _ hpv).1
    have ho := (subDays_spec 3 _ hpv).2
    have hy := subDays_in_year 3 _ hpv (by push_cast; omega)
    refine ⟨hv, by rw [hy.1, hpy], Or.inr (Or.inl ?_)⟩
    unfold weekday
    rw [ho]
    omega
  · -- viernes_santo
    subst hf
    have hv := (subDays_spec 2 _ hpv).1
    have ho := (subDays_spec 2 _ hpv).2
    have hy := subDays_in_year 2 _ hpv (by push_cast; omega)
    refine ⟨hv, by rw [hy.1, hpy], Or.inr (Or.inr (Or.inl ?_))⟩
    unfold weekday
    rw [ho]
    omega
  · rw [hf]
    exact ⟨pas39.1, pas39.2.1, Or.inl pas39.2.2⟩
  · rw [hf]
    exact ⟨pas60.1, pas60.2.1, Or.inl pas60.2.2⟩
  · rw [hf]
    exact ⟨pas68.1, pas68.2.1, Or.inl pas68.2.2⟩

/-! ### Termination of the business-day scan -/

lemma addDays_one (d : Date) : addDays 1 d = nextDay d :=
  congrFun (Function.iterate_one nextDay) d

lemma addDays_succ_shift (n : Nat) (d : Date) :
    addDays (n + 1) d = addDays n (nextDay d) :=
  Function.iterate_succ_apply nextDay n d

lemma fixed_doy_shape (fc : Date) (h : (fc.month, fc.day) ∈ FESTIVOS_FIJOS) :
    doy fc = 1 ∨
      doy fc = 121 + (if isLeap fc.year then 1 else 0) ∨
      doy fc = 201 + (if isLeap fc.year then 1 else 0) ∨
      doy fc = 219 + (if isLeap fc.year then 1 else 0) ∨
      doy fc = 342 + (if isLeap fc.year then 1 else 0) ∨
      doy fc = 359 + (if isLeap fc.year then 1 else 0) := by
  simp only [FESTIVOS_FIJOS, List.mem_cons, List.not_mem_nil, or_false, Prod.mk.injEq] at h
  obtain ⟨y, m, day⟩ := fc
  dsimp only at h ⊢
  rcases h with ⟨h1, h2⟩ | ⟨h1, h2⟩ | ⟨h1, h2⟩ | ⟨h1, h2⟩ | ⟨h1, h2⟩ | ⟨h1, h2⟩ <;>
    subst h1 <;> subst h2 <;>
      simp only [doy, daysBeforeMonth] <;> split_ifs <;> simp_all <;> omega

lemma ordinal_add7_cases (x z : Date) (hx : Valid x) (hz : Valid z)
    (h : ordinal z = ordinal x + 7) :
    (z.year = x.year ∧ doy z = doy x + 7) ∨
      (z.year = x.year + 1 ∧
        doy x = doy z + 358 + (if isLeap x.year then 1 else 0)) := by
  have bx := doy_bounds x hx
  have bz := doy_bounds z hz
  have hsx := daysBeforeYear_succ x.year
  unfold ordinal at h
  rcases lt_trichotomy z.year x.year with hlt | heq | hgt
  · exfalso
    have h2 := daysBeforeYear_mono (z.year + 1) x.year (by omega)
    have hsz := daysBeforeYear_succ z.year
    split_ifs at bx bz hsz <;> omega
  · rw [heq] at h
    exact Or.inl ⟨heq, by omega⟩
  · rcases Int.lt_or_le (x.year + 1) z.year with hgt2 | hle
    · exfalso
      have h2 := daysBeforeYear_mono (x.year + 1 + 1) z.year (by omega)
      have hs2 := daysBeforeYear_succ (x.year + 1)
      split_ifs at bx bz hsx hs2 <;> omega
    · have hz1 : z.year = x.year + 1 := by omega
      refine Or.inr ⟨hz1, ?_⟩
      rw [hz1, hsx] at h
      split_ifs at h ⊢ <;> omega

lemma no_three_fixed (x1 x2 x3 : Date) (h1 : Valid x1) (h2 : Valid x2) (h3 : Valid x3)
    (f1 : (x1.month, x1.day) ∈ FESTIVOS_FIJOS) (f2 : (x2.month, x2.day) ∈ FESTIVOS_FIJOS)
    (f3 : (x3.month, x3.day) ∈ FESTIVOS_FIJOS)
    (o2 : ordinal x2 = ordinal x1 + 7) (o3 : ordinal x3 = ordinal x2 + 7) : False := by
  have d1 := fixed_doy_shape x1 f1
  have d2 := fixed_doy_shape x2 f2
  have d3 := fixed_doy_shape x3 f3
  have b3 := doy_bounds x3 h3
  rcases ordinal_add7_cases x1 x2 h1 h2 o2 with ⟨hy, hd⟩ | ⟨hy, hd⟩
  · rw [hy] at d2
    split_ifs at d1 d2 <;> omega
  · rcases ordinal_add7_cases x2 x3 h2 h3 o3 with ⟨hy3, hd3⟩ | ⟨hy3, hd3⟩
    · rw [hy3] at d3
      split_ifs at d1 d2 d3 <;> omega
    · split_ifs at d1 d2 d3 b3 <;> omega

lemma habil_within (d : Date) (hd : Valid d) :
    ∃ n : Nat, 1 ≤ n ∧ n ≤ 21 ∧ esHabil (addDays n d) := by
  by_contra hcon
  push_neg at hcon
  have hw0 := weekday_nonneg d
  have hw7 := weekday_lt d
  obtain ⟨k, hk1, hk7, hwk⟩ : ∃ k : Nat, 1 ≤ k ∧ k ≤ 7 ∧ (weekday d + k) % 7 = 1 := by
    have hw : weekday d = 0 ∨ weekday d = 1 ∨ weekday d = 2 ∨ weekday d = 3 ∨
        weekday d = 4 ∨ weekday d = 5 ∨ weekday d = 6 := by omega
    rcases hw with h | h | h | h | h | h | h
    exacts [⟨1, by omega, by omega, by omega⟩, ⟨7, by omega, by omega, by omega⟩,
      ⟨6, by omega, by omega, by omega⟩, ⟨5, by omega, by omega, by omega⟩,
      ⟨4, by omega, by omega, by omega⟩, ⟨3, by omega, by omega, by omega⟩,
      ⟨2, by omega, by omega, by omega⟩]
  have hT : ∀ j : Nat, weekday (addDays (k + 7 * j) d) = 1 := by
    intro j
    rw [weekday_addDays _ _ hd]
    push_cast
    omega
  have hTfix : ∀ j : Nat, j ≤ 2 →
      ((addDays (k + 7 * j) d).month, (addDays (k + 7 * j) d).day) ∈ FESTIVOS_FIJOS := by
    intro j hj
    have hv := (addDays_spec (k + 7 * j) d hd).1
    have hcj := hcon (k + 7 * j) (by omega) (by omega)
    have hfest : es_festivo (addDays (k + 7 * j) d) = true := by
      rcases Bool.eq_false_or_eq_true (es_festivo (addDays (k + 7 * j) d)) with hb | hb
      · exact hb
      · exfalso
        apply hcj
        unfold esHabil
        exact ⟨by rw [hT j]; omega, hb⟩
    have hmem := (es_festivo_true_iff _).1 hfest
    have hspec := festivos_elem_spec _ _ hmem
    rcases hspec.2.2 with h0 | h0 | h0 | hfix
    · rw [hT j] at h0; omega
    · rw [hT j] at h0; omega
    · rw [hT j] at h0; omega
    · exact hfix
  have hv0 := (addDays_spec (k + 7 * 0) d hd)
  have hv1 := (addDays_spec (k + 7 * 1) d hd)
  have hv2 := (addDays_spec (k + 7 * 2) d hd)
  refine no_three_fixed (addDays (k + 7 * 0) d) (addDays (k + 7 * 1) d)
    (addDays (k + 7 * 2) d) hv0.1 hv1.1 hv2.1
    (hTfix 0 (by omega)) (hTfix 1 (by omega)) (hTfix 2 (by omega)) ?_ ?_
  · rw [hv0.2, hv1.2]; push_cast; ring
  · rw [hv1.2, hv2.2]; push_cast; ring

lemma scanHabil_spec : ∀ (fuel : Nat) (d : Date), Valid d →
    (∃ n : Nat, 1 ≤ n ∧ n ≤ fuel ∧ esHabil (addDays n d)) →
    ∃ n0 : Nat, 1 ≤ n0 ∧ n0 ≤ fuel ∧ scanHabil fuel d = some (addDays n0 d) ∧
      esHabil (addDays n0 d) ∧ ∀ j : Nat, 1 ≤ j → j < n0 → ¬esHabil (addDays j d) := by
  intro fuel
  induction fuel with
  | zero =>
    rintro d hd ⟨n, h1, h2, _⟩
    omega
  | succ f ih =>
    rintro d hd ⟨n, hn1, hnf, hnh⟩
    by_cases hfirst : esHabil (nextDay d)
    · refine ⟨1, le_refl 1, by omega, ?_, ?_, by omega⟩
      · simp only [scanHabil, if_pos hfirst, addDays_one]
      · rw [addDays_one]; exact hfirst
    · have hn2 : 2 ≤ n := by
        rcases Nat.lt_or_ge n 2 with hlt | hge
        · exfalso
          have hne : n = 1 := by omega
          rw [hne, addDays_one] at hnh
          exact hfirst hnh
        · exact hge
      have hstep : addDays n d = addDays (n - 1) (nextDay d) := by
        rw [← addDays_succ_shift, show n - 1 + 1 = n by omega]
      obtain ⟨n0, g1, gf, geq, gh, gmin⟩ := ih (nextDay d) (nextDay_spec d hd).1
        ⟨n - 1, by omega, by omega, by rw [← hstep]; exact hnh⟩
      refine ⟨n0 + 1, by omega, by omega, ?_, ?_, ?_⟩
      · simp only [scanHabil, if_neg hfirst]
        rw [geq, ← addDays_succ_shift]
      · rw [addDays_succ_shift]; exact gh
      · intro j hj1 hjlt
        rcases Nat.lt_or_ge j 2 with hlt | hge
        · have hje : j = 1 := by omega
          rw [hje, addDays_one]
          exact hfirst
        · have := gmin (j - 1) (by omega) (by omega)
          rw [show j = j - 1 + 1 by omega, addDays_succ_shift]
          exact this

lemma siguiente_spec (d : Date) (hd : Valid d) :
    ∃ n0 : Nat, 1 ≤ n0 ∧ obtener_siguiente_dia_habil d = some (addDays n0 d) ∧
      esHabil (addDays n0 d) ∧ ∀ j : Nat, 1 ≤ j → j < n0 → ¬esHabil (addDays j d) := by
  obtain ⟨n, h1, h21, hh⟩ := habil_within d hd
  obtain ⟨n0, g1, gf, geq, gh, gmin⟩ := scanHabil_spec 1000 d hd ⟨n, h1, by omega, hh⟩
  exact ⟨n0, g1, geq, gh, gmin⟩

lemma habil_minimal (d : Date) (hd : Valid d) (n0 : Nat)
    (gmin : ∀ j : Nat, 1 ≤ j → j < n0 → ¬esHabil (addDays j d)) :
    ∀ x : Date, Valid x → ordinal d < ordinal x → ordinal x < ordinal d + n0 →
      ¬esHabil x := by
  intro x hx h1 h2
  have hvj := addDays_spec (ordinal x - ordinal d).toNat d hd
  have hxeq : x = addDays (ordinal x - ordinal d).toNat d :=
    ordinal_inj _ _ hx hvj.1 (by omega)
  rw [hxeq]
  exact gmin _ (by omega) (by omega)

lemma ajustar_spec (d : Date) (hd : Valid d) :
    ∃ r w, ajustar_dia_rondas d = some (r, w) ∧ Valid r ∧
      weekday r < 5 ∧ es_festivo r = false ∧
      (w = false → r = d) ∧ (w = true → ordinal d < ordinal r) ∧
      (w = true ↔ (es_festivo d = true ∨ 5 ≤ weekday d)) ∧
      (∀ x : Date, Valid x → ordinal d < ordinal x → ordinal x < ordinal r →
        ¬esHabil x) := by
  by_cases hcond : es_festivo d = true ∨ 5 ≤ weekday d
  · obtain ⟨n0, g1, geq, gh, gmin⟩ := siguiente_spec d hd
    have hv := (addDays_spec n0 d hd).1
    have ho := (addDays_spec n0 d hd).2
    refine ⟨addDays n0 d, true, ?_, hv, gh.1, gh.2,
      fun h => absurd h (by simp), fun _ => by omega, by simp [hcond], ?_⟩
    · unfold ajustar_dia_rondas
      rw [if_pos hcond, geq]
      rfl
    · have := habil_minimal d hd n0 gmin
      intro x hx h1 h2
      exact this x hx h1 (by omega)
  · have hcond2 := hcond
    push_neg at hcond2
    have hfalse : es_festivo d = false := by
      rcases Bool.eq_false_or_eq_true (es_festivo d) with hb | hb
      exacts [absurd hb hcond2.1, hb]
    refine ⟨d, false, ?_, hd, by omega, hfalse,
      fun _ => rfl, fun h => absurd h (by simp), ?_, ?_⟩
    · unfold ajustar_dia_rondas
      rw [if_neg hcond]
    · constructor
      · intro h; exact absurd h (by simp)
      · intro h; exact absurd h hcond
    · intro x hx h1 h2
      omega

/-! ### The claims -/

/-- C1: for every calendar date `d`, `ajustar_dia_rondas d` returns an effective
date equal to `d` when the shifted flag is `false`, strictly after `d` (in
`ordinal`, i.e. chronological order) when the flag is `true`, and in either case
the effective date is a business day: its weekday is Monday–Friday
(`weekday < 5`) and it is not in the holiday list of its own year
(`es_festivo = false`). -/
theorem c1_adjust_business_day (d : Date) (hd : Valid d) :
    ∃ r w, ajustar_dia_rondas d = some (r, w) ∧
      (w = false → r = d) ∧ (w = true → ordinal d < ordinal r) ∧
      weekday r < 5 ∧ es_festivo r = false := by
  obtain ⟨r, w, h1, _, h3, h4, h5, h6, _, _⟩ := ajustar_spec d hd
  exact ⟨r, w, h1, h5, h6, h3, h4⟩

/-- Witness for C1 at 2025-10-12 (a Sunday). -/
theorem c1_adjust_business_day_witness :
    Valid ⟨2025, 10, 12⟩ ∧
      ∃ r w, ajustar_dia_rondas ⟨2025, 10, 12⟩ = some (r, w) ∧
        (w = false → r = ⟨2025, 10, 12⟩) ∧
        (w = true → ordinal ⟨2025, 10, 12⟩ < ordinal r) ∧
        weekday r < 5 ∧ es_festivo r = false :=
  ⟨by decide, c1_adjust_business_day ⟨2025, 10, 12⟩ (by decide)⟩

/-- C2: the boolean returned by `ajustar_dia_rondas d` is `true` exactly when
`d` itself is a holiday (`es_festivo d = true`) or falls on Saturday or Sunday
(`5 ≤ weekday d`). -/
theorem c2_shift_flag_iff (d : Date) (hd : Valid d) :
    ∃ r w, ajustar_dia_rondas d = some (r, w) ∧
      (w = true ↔ (es_festivo d = true ∨ 5 ≤ weekday d)) := by
  obtain ⟨r, w, h1, _, _, _, _, _, h7, _⟩ := ajustar_spec d hd
  exact ⟨r, w, h1, h7⟩

/-- Witness for C2 at 2025-01-01 (a Wednesday holiday). -/
theorem c2_shift_flag_iff_witness :
    Valid ⟨2025, 1, 1⟩ ∧
      ∃ r w, ajustar_dia_rondas ⟨2025, 1, 1⟩ = some (r, w) ∧
        (w = true ↔ (es_festivo ⟨2025, 1, 1⟩ = true ∨ 5 ≤ weekday ⟨2025, 1, 1⟩)) :=
  ⟨by decide, c2_shift_flag_iff ⟨2025, 1, 1⟩ (by decide)⟩

/-- C3 counterexample: at year 2025 the claim "18 dates, no duplicates, all
within the year" fails, because the holiday list of 2025 contains the date
2025-06-30 twice (shifted Saint Peter and Paul coincides with shifted Sacred
Heart), so it is not duplicate-free. -/
theorem c3_counterexample :
    ¬((obtener_festivos_anio 2025).length = 18 ∧ (obtener_festivos_anio 2025).Nodup ∧
      ∀ f ∈ obtener_festivos_anio 2025, f.year = 2025) := by
  intro h
  exact absurd h.2.1 (by decide)

/-- C3 (amended): for every year, `obtener_festivos_anio` yields a list of
exactly 18 dates (counted with multiplicity: 6 fixed + 7 movable-to-Monday +
5 Easter-relative), and every date in it lies within that year; the dates need
not be pairwise distinct (in 2025 two of them coincide). -/
theorem c3_amended (anio : Int) :
    (obtener_festivos_anio anio).length = 18 ∧
      ∀ f ∈ obtener_festivos_anio anio, f.year = anio :=
  ⟨festivos_length anio, fun f hf => (festivos_elem_spec anio f hf).2.1⟩

/-- C4: the Monday-shift rule always outputs a Monday; an input already on
Monday is returned unchanged, and a non-Monday input is shifted forward by
between 1 and 6 days, never 0 and never 7. -/
theorem c4_monday_shift (d : Date) (hd : Valid d) :
    weekday (trasladoLunes d) = 0 ∧
      (weekday d = 0 → trasladoLunes d = d) ∧
      (weekday d ≠ 0 → ∃ s : Nat, 1 ≤ s ∧ s ≤ 6 ∧ trasladoLunes d = addDays s d) := by
  obtain ⟨_, h2, h3, s, hs6, hs1, heq, _⟩ := trasladoLunes_spec d hd
  exact ⟨h2, h3, fun hne => ⟨s, hs1 hne, hs6, heq⟩⟩

/-- Witness for C4 at 2025-01-04 (a Saturday). -/
theorem c4_monday_shift_witness :
    Valid ⟨2025, 1, 4⟩ ∧
      (weekday (trasladoLunes ⟨2025, 1, 4⟩) = 0 ∧
        (weekday ⟨2025, 1, 4⟩ = 0 → trasladoLunes ⟨2025, 1, 4⟩ = ⟨2025, 1, 4⟩) ∧
        (weekday ⟨2025, 1, 4⟩ ≠ 0 → ∃ s : Nat, 1 ≤ s ∧ s ≤ 6 ∧
          trasladoLunes ⟨2025, 1, 4⟩ = addDays s ⟨2025, 1, 4⟩)) :=
  ⟨by decide, c4_monday_shift ⟨2025, 1, 4⟩ (by decide)⟩

/-- C5: for every year in [1900, 2100], `calcular_domingo_pascua` returns a
valid date of that year in March or April whose weekday is Sunday
(`weekday = 6`); in particular Easter 2025 is 2025-04-20. -/
theorem c5_easter_sunday (anio : Int) (h1 : 1900 ≤ anio) (h2 : anio ≤ 2100) :
    (calcular_domingo_pascua anio).year = anio ∧
      ((calcular_domingo_pascua anio).month = 3 ∨
        (calcular_domingo_pascua anio).month = 4) ∧
      Valid (calcular_domingo_pascua anio) ∧
      weekday (calcular_domingo_pascua anio) = 6 ∧
      calcular_domingo_pascua 2025 = ⟨2025, 4, 20⟩ := by
  obtain ⟨a1, a2, a3, a4, _, _⟩ := pascua_spec anio
  exact ⟨a1, a2, a3, a4, by decide⟩

/-- Witness for C5 at year 2025. -/
theorem c5_easter_sunday_witness :
    (1900 ≤ (2025 : Int)) ∧ ((2025 : Int) ≤ 2100) ∧
      ((calcular_domingo_pascua 2025).year = 2025 ∧
        ((calcular_domingo_pascua 2025).month = 3 ∨
          (calcular_domingo_pascua 2025).month = 4) ∧
        Valid (calcular_domingo_pascua 2025) ∧
        weekday (calcular_domingo_pascua 2025) = 6 ∧
        calcular_domingo_pascua 2025 = ⟨2025, 4, 20⟩) :=
  ⟨by decide, by decide, c5_easter_sunday 2025 (by decide) (by decide)⟩

/-- C6: for every calendar date `d`, the unbounded forward scan of
`obtener_siguiente_dia_habil` terminates (the fuelled model returns `some`),
and its result is the smallest date strictly after `d` (in `ordinal` order)
whose weekday is Monday–Friday and which is not a holiday of its own year. -/
theorem c6_next_business_day (d : Date) (hd : Valid d) :
    ∃ r, obtener_siguiente_dia_habil d = some r ∧ Valid r ∧
      weekday r < 5 ∧ es_festivo r = false ∧ ordinal d < ordinal r ∧
      ∀ x : Date, Valid x → ordinal d < ordinal x → ordinal x < ordinal r →
        ¬(weekday x < 5 ∧ es_festivo x = false) := by
  obtain ⟨n0, g1, geq, gh, gmin⟩ := siguiente_spec d hd
  have hv := (addDays_spec n0 d hd).1
  have ho := (addDays_spec n0 d hd).2
  refine ⟨addDays n0 d, geq, hv, gh.1, gh.2, by omega, ?_⟩
  have hm := habil_minimal d hd n0 gmin
  intro x hx h1 h2
  exact hm x hx h1 (by omega)

/-- Witness for C6 at 2025-12-25 (a Thursday holiday; the scan must skip it
and land on Friday 2025-12-26). -/
theorem c6_next_business_day_witness :
    Valid ⟨2025, 12, 25⟩ ∧
      ∃ r, obtener_siguiente_dia_habil ⟨2025, 12, 25⟩ = some r ∧ Valid r ∧
        weekday r < 5 ∧ es_festivo r = false ∧ ordinal ⟨2025, 12, 25⟩ < ordinal r ∧
        ∀ x : Date, Valid x → ordinal ⟨2025, 12, 25⟩ < ordinal x →
          ordinal x < ordinal r → ¬(weekday x < 5 ∧ es_festivo x = false) :=
  ⟨by decide, c6_next_business_day ⟨2025, 12, 25⟩ (by decide)⟩

/-- C7: `ajustar_dia_rondas` is idempotent — applying it to the effective date
it returned yields that same date with the shifted flag `false`. -/
theorem c7_adjust_idempotent (d : Date) (hd : Valid d) :
    ∀ r w, ajustar_dia_rondas d = some (r, w) →
      ajustar_dia_rondas r = some (r, false) := by
  obtain ⟨r0, w0, h1, _, h5, h6, _, _, _, _⟩ := ajustar_spec d hd
  intro r w heq
  rw [h1] at heq
  simp only [Option.some.injEq, Prod.mk.injEq] at heq
  obtain ⟨hr, hw⟩ := heq
  subst hr
  unfold ajustar_dia_rondas
  rw [if_neg]
  rw [h6]
  simp only [Bool.false_eq_true, false_or]
  omega

/-- Witness for C7 at 2025-06-29 (a Sunday). -/
theorem c7_adjust_idempotent_witness :
    Valid ⟨2025, 6, 29⟩ ∧
      ∀ r w, ajustar_dia_rondas ⟨2025, 6, 29⟩ = some (r, w) →
        ajustar_dia_rondas r = some (r, false) :=
  ⟨by decide, c7_adjust_idempotent ⟨2025, 6, 29⟩ (by decide)⟩

/-- C8: the concrete 2025 cases — New Year 2025-01-01 is a holiday and
2025-01-02 is not; rounds requested on 2025-01-01 move to 2025-01-02 with the
shifted flag set; Epiphany 2025-01-06 is a holiday observed on January 6
itself, which is a Monday, so the Monday-shift leaves it unchanged. -/
theorem c8_concrete_2025 :
    es_festivo ⟨2025, 1, 1⟩ = true ∧ es_festivo ⟨2025, 1, 2⟩ = false ∧
      ajustar_dia_rondas ⟨2025, 1, 1⟩ = some (⟨2025, 1, 2⟩, true) ∧
      es_festivo ⟨2025, 1, 6⟩ = true ∧ weekday ⟨2025, 1, 6⟩ = 0 ∧
      trasladoLunes ⟨2025, 1, 6⟩ = ⟨2025, 1, 6⟩ := by
  decide

/-- C9: a year outside the range Python's `date` accepts (1–9999) makes both
year-driven operations fail at their first date construction — the checked
models return `none` (Python raises `ValueError`) rather than a computed
date. -/
theorem c9_out_of_range_fails (anio : Int) (h : anio < 1 ∨ 9999 < anio) :
    calcular_domingo_pascua_checked anio = none ∧
      obtener_festivos_anio_checked anio = none := by
  have hc : ∀ m d : Nat, date_ctor anio m d = none := by
    intro m d
    unfold date_ctor
    rw [if_neg]
    rintro ⟨ha1, ha2, -⟩
    omega
  constructor
  · exact hc _ _
  · have h11 := hc 1 1
    simp [obtener_festivos_anio_checked, FESTIVOS_FIJOS, construirFechas, h11]

/-- Witness for C9 at year 10000. -/
theorem c9_out_of_range_fails_witness :
    ((10000 : Int) < 1 ∨ 9999 < (10000 : Int)) ∧
      calcular_domingo_pascua_checked 10000 = none ∧
      obtener_festivos_anio_checked 10000 = none :=
  ⟨by decide, c9_out_of_range_fails 10000 (by decide)⟩

/-- C10: the zero-shift fallback (`if dias_hasta_lunes == 0: dias_hasta_lunes
= 7`) is dead code — whenever the shift computation runs (weekday ≠ 0), the
modulus `(7 - weekday) % 7` equals `7 - weekday`, lies in 1..6 and is never 0,
so `trasladoLunes` always takes the unguarded shift. -/
theorem c10_zero_guard_dead (d : Date) (h : weekday d ≠ 0) :
    (7 - weekday d) % 7 = 7 - weekday d ∧ (7 - weekday d) % 7 ≠ 0 ∧
      trasladoLunes d = addDays ((7 - weekday d) % 7).toNat d := by
  have h0 := weekday_nonneg d
  have h7 := weekday_lt d
  have hmod : (7 - weekday d) % 7 = 7 - weekday d := by omega
  have hnz2 : ¬(7 - weekday d = 0) := by omega
  refine ⟨hmod, by omega, ?_⟩
  simp only [trasladoLunes, if_pos h, hmod, if_neg hnz2]

/-- Witness for C10 at 2025-02-14 (a Friday, weekday 4). -/
theorem c10_zero_guard_dead_witness :
    weekday ⟨2025, 2, 14⟩ ≠ 0 ∧
      ((7 - weekday ⟨2025, 2, 14⟩) % 7 = 7 - weekday ⟨2025, 2, 14⟩ ∧
        (7 - weekday ⟨2025, 2, 14⟩) % 7 ≠ 0 ∧
        trasladoLunes ⟨2025, 2, 14⟩ =
          addDays ((7 - weekday ⟨2025, 2, 14⟩) % 7).toNat ⟨2025, 2, 14⟩) :=
  ⟨by decide, c10_zero_guard_dead ⟨2025, 2, 14⟩ (by decide)⟩

end Rondas
